import Mathlib

/-!  Formal model of the Road-Trip Rally multiplayer server (src/server.js).

JavaScript numbers are modelled by `ℚ`; the transcendental library functions
(`Math.sin`, `Math.cos`, `Math.hypot`) and the three fixed-base
`Math.pow(base, DT)` values appearing in the simulation are abstracted into a
`JsEnv` record, fixed for a whole process run.  Timestamps (`Date.now()`) are
`ℤ` milliseconds.  JavaScript objects used as string-keyed maps (`rooms`,
`room.players`) are modelled as association lists in key-insertion order,
which is exactly the iteration order `Object.keys`/`Object.values` provide
for such objects; inserting a fresh key appends, deleting a key removes it
and keeps the order of the others.
-/

namespace RoadTrip

/-- Value of a field of an inbound message as relevant to the JavaScript
coercions `+x || 0` and `!!x`: a finite number, `NaN` (any non-numeric
data), a boolean, or a missing field (`undefined`). -/
inductive JsVal where
  | num (q : ℚ)
  | nan
  | boolV (b : Bool)
  | undef
deriving DecidableEq

/-- JavaScript `+x || 0`: coerce to a number, with `NaN` (and the falsy
numbers `0`, `-0`) replaced by `0`. -/
def plusOr0 : JsVal → ℚ
  | .num q => q
  | .boolV b => if b then 1 else 0
  | _ => 0

/-- JavaScript `!!x`. -/
def truthy : JsVal → Bool
  | .num q => decide (q ≠ 0)
  | .boolV b => b
  | _ => false

/-- The ambient JavaScript math library, fixed for a whole process run:
`Math.sin`, `Math.cos`, `Math.hypot`, and the three constants
`Math.pow(0.9, DT)`, `Math.pow(0.65, DT)`, `Math.pow(0.5, DT)` that the
simulation computes from fixed bases and the fixed timestep. -/
structure JsEnv where
  sin : ℚ → ℚ
  cos : ℚ → ℚ
  hypot : ℚ → ℚ → ℚ
  powOn : ℚ
  powOff : ℚ
  powHalf : ℚ

/-- `const DT = 1 / TICK_HZ` with `TICK_HZ = 20`. -/
def DT : ℚ := 1 / 20

/-- `const ROOM_TTL_MS = 1000 * 60 * 60`. -/
def ROOM_TTL_MS : ℤ := 1000 * 60 * 60

/-- `x - Math.floor(x)`, the fractional-part step used inside `noise1`. -/
def jsFract (x : ℚ) : ℚ := x - ⌊x⌋

/-- `noise1(seed, y)` (server.js lines 31-41): deterministic 1-D value noise.
Samples the two integer lattice points bracketing `y`, pseudo-randomizes each
with `sin((n + seed) * 12345.678) * 43758.5453` reduced to its fractional
part, and interpolates with the cubic smoothstep `t*t*(3 - 2*t)`. -/
def noise1 (env : JsEnv) (seed : ℤ) (y : ℚ) : ℚ :=
  let y0 : ℤ := ⌊y⌋
  let y1 : ℤ := y0 + 1
  let t : ℚ := y - (y0 : ℚ)
  let rnd : ℤ → ℚ := fun n =>
    jsFract (env.sin (((n : ℚ) + (seed : ℚ)) * 12345.678) * 43758.5453)
  let smooth := t * t * (3 - 2 * t)
  rnd y0 * (1 - smooth) + rnd y1 * smooth

/-- `roadCenterX(seed, yMeters)` (lines 43-46): lateral road-centre offset. -/
def roadCenterX (env : JsEnv) (seed : ℤ) (yMeters : ℚ) : ℚ :=
  (noise1 env seed (yMeters * 0.0025) * 2 - 1) * 25

/-- POI type (`"none" | "gas" | "hotel" | "store" | "town"`). -/
inductive PoiType where
  | none
  | gas
  | hotel
  | store
  | town
deriving DecidableEq

/-- The record returned by `poiForY`. -/
structure Poi where
  k : ℤ
  type : PoiType
  x : ℚ
  y : ℚ
  radius : ℚ
deriving DecidableEq

/-- `poiForY(seed, yMeters)` (lines 48-62). -/
def poiForY (env : JsEnv) (seed : ℤ) (yMeters : ℚ) : Poi :=
  let SEG : ℚ := 800
  let k : ℤ := ⌊yMeters / SEG⌋
  let r := noise1 env (seed + 9999) ((k : ℚ) * 1.0)
  let type : PoiType :=
    if r < 0.22 then .gas
    else if r < 0.38 then .hotel
    else if r < 0.54 then .store
    else if r < 0.68 then .town
    else .none
  let centerX := roadCenterX env seed ((k : ℚ) * SEG + SEG * 0.5)
  let side : ℚ := if r < 0.5 then -1 else 1
  { k := k, type := type,
    x := centerX + side * (7 + 10),
    y := (k : ℚ) * SEG + SEG * 0.5,
    radius := if type = .town then 22 else 10 }

/-- A player record, as built by `makePlayer` (lines 64-74) and mutated by
the handlers and the tick. -/
structure Player where
  id : String
  name : String
  color : String
  x : ℚ
  y : ℚ
  angle : ℚ
  vx : ℚ
  vy : ℚ
  speed : ℚ
  fuel : ℚ
  maxFuel : ℚ
  throttle : ℚ
  brake : ℚ
  steer : ℚ
  refuel : Bool
  distance : ℚ
  ready : Bool
  isHost : Bool
  lastHeard : ℤ
deriving DecidableEq

/-- `makePlayer({id, name, color})` (lines 64-74). -/
def makePlayer (id name color : String) (now : ℤ) : Player :=
  { id := id, name := name, color := color,
    x := 0, y := 0, angle := 0,
    vx := 0, vy := 0, speed := 0,
    fuel := 100, maxFuel := 100,
    throttle := 0, brake := 0, steer := 0, refuel := false,
    distance := 0,
    ready := false, isHost := false, lastHeard := now }

/-- Room phase, `"lobby" | "running"`. -/
inductive Phase where
  | lobby
  | running
deriving DecidableEq

/-- A room record (lines 92-99).  `players` is the insertion-ordered list of
values of the `players` object. -/
structure Room where
  code : String
  createdAt : ℤ
  seed : ℤ
  phase : Phase
  players : List Player
  lastTick : ℤ
deriving DecidableEq

/-- Entry of the `players` array inside a lobby snapshot (lines 81-84). -/
structure LobbyEntry where
  id : String
  name : String
  color : String
  ready : Bool
  isHost : Bool
  distance : ℚ
deriving DecidableEq

/-- The value built by `snapshotRoom(room)` (lines 76-86). -/
structure RoomSnapshot where
  code : String
  phase : Phase
  seed : ℤ
  players : List LobbyEntry
deriving DecidableEq

/-- `snapshotRoom(room)` (lines 76-86). -/
def snapshotRoom (room : Room) : RoomSnapshot :=
  { code := room.code,
    phase := room.phase,
    seed := room.seed,
    players := room.players.map fun p =>
      { id := p.id, name := p.name, color := p.color,
        ready := p.ready, isHost := p.isHost, distance := p.distance } }

/-- Entry of the `players` array inside a tick `state` payload
(lines 172-176). -/
structure StateEntry where
  id : String
  name : String
  color : String
  x : ℚ
  y : ℚ
  angle : ℚ
  speed : ℚ
  fuel : ℚ
  maxFuel : ℚ
  distance : ℚ
deriving DecidableEq

/-- Projection of a player used in the tick `state` payload. -/
def stateEntry (p : Player) : StateEntry :=
  { id := p.id, name := p.name, color := p.color,
    x := p.x, y := p.y, angle := p.angle, speed := p.speed,
    fuel := p.fuel, maxFuel := p.maxFuel, distance := p.distance }

/-- The global `rooms` object: active rooms in key-insertion order. -/
abbrev ServerState := List Room

/-- Payload of an outbound message. -/
inductive OutPayload where
  | joinedSnap (s : RoomSnapshot) (playerId : String)
  | lobbySnap (s : RoomSnapshot)
  | startSeed (seed : ℤ)
  | stateTick (phase : Phase) (seed : ℤ) (players : List StateEntry) (t : ℤ)
  | statePlayersOnly (players : List Player)
  | errorText (msg : String)
  | pongEcho (d : JsVal)
deriving DecidableEq

/-- Destination of an outbound message: one connection (`socket.emit`) or a
room broadcast (`io.to(code).emit`). -/
inductive Target where
  | toConn (conn : String)
  | toRoom (code : String)
deriving DecidableEq

/-- One outbound emission. -/
structure Emit where
  target : Target
  payload : OutPayload
deriving DecidableEq

/-- `rooms[code]` lookup: first room with the given code. -/
def getRoom : ServerState → String → Option Room
  | [], _ => none
  | r :: rest, c => if r.code = c then some r else getRoom rest c

/-- In-place update of the room stored under a code (mutation of the object
`rooms[code]` refers to): replaces the first room with that code. -/
def setRoomAt : ServerState → String → Room → ServerState
  | [], _, _ => []
  | r :: rest, c, r2 => if r.code = c then r2 :: rest else r :: setRoomAt rest c r2

/-- `room.players[connId]` lookup. -/
def findP : List Player → String → Option Player
  | [], _ => none
  | p :: rest, i => if p.id = i then some p else findP rest i

/-- `room.players[connId] = p`: replace the entry under an existing key in
place, or append under a fresh key. -/
def objSet : List Player → Player → List Player
  | [], p => [p]
  | q :: rest, p => if q.id = p.id then p :: rest else q :: objSet rest p

/-- `delete room.players[connId]`: drop the entry under the key, keeping the
order of the others. -/
def objDel : List Player → String → List Player
  | [], _ => []
  | q :: rest, i => if q.id = i then rest else q :: objDel rest i

/-- In-place mutation of the player stored under a key (`p.field = v` on the
object `room.players[connId]` refers to). -/
def modPlayer : List Player → String → (Player → Player) → List Player
  | [], _, _ => []
  | q :: rest, i, f => if q.id = i then f q :: rest else q :: modPlayer rest i f

/-- `Math.max(0, Math.min(1, x))`. -/
def clamp01 (q : ℚ) : ℚ := max 0 (min 1 q)

/-- `Math.max(-1, Math.min(1, x))`. -/
def clampSteer (q : ℚ) : ℚ := max (-1) (min 1 q)

/-- Raw fields of an inbound `input` message. -/
structure InputData where
  throttle : JsVal
  brake : JsVal
  steer : JsVal
  refuel : JsVal
deriving DecidableEq

/-- Body of the `input` handler applied to the found player (lines 243-247):
clamp throttle and brake into [0,1], steer into [-1,1], coerce refuel to a
boolean, stamp the last-input time. -/
def applyInputP (d : InputData) (now : ℤ) (p : Player) : Player :=
  { p with
    throttle := clamp01 (plusOr0 d.throttle),
    brake := clamp01 (plusOr0 d.brake),
    steer := clampSteer (plusOr0 d.steer),
    refuel := truthy d.refuel,
    lastHeard := now }

/-- Idle timeout (line 127): if no input for more than 10 seconds, zero the
controls. -/
def idleZero (now : ℤ) (p : Player) : Player :=
  if 10000 < now - p.lastHeard then
    { p with throttle := 0, steer := 0, brake := 0, refuel := false }
  else p

/-- Speed clamp (lines 139-140): to 45 from above, to -10 from below. -/
def clampSpeed (sp : ℚ) : ℚ :=
  let s3 := if 45 < sp then (45 : ℚ) else sp
  if s3 < -10 then -10 else s3

/-- Fuel burn (lines 152-155): only while `throttle > 0 && speed > 0.2`,
scaled 1.8x off-road, floored at 0. -/
def fuelAfterBurn (onRoad : Bool) (throttle speed fuel : ℚ) : ℚ :=
  if 0 < throttle ∧ 0.2 < speed then
    if fuel - 0.015 * throttle * (if onRoad then 1 else 1.8) < 0 then 0
    else fuel - 0.015 * throttle * (if onRoad then 1 else 1.8)
  else fuel

/-- Refuel step (lines 157-164): requires the flag, headroom, and proximity
to a gas/town/store POI at the (already moved) position; adds `30 * DT`,
capped at `maxFuel`. -/
def fuelAfterRefuel (env : JsEnv) (seed : ℤ) (refuel : Bool)
    (x y fuel maxFuel : ℚ) : ℚ :=
  if refuel ∧ fuel < maxFuel then
    if ((poiForY env seed y).type = .gas ∨ (poiForY env seed y).type = .town ∨
          (poiForY env seed y).type = .store) ∧
        env.hypot (x - (poiForY env seed y).x) (y - (poiForY env seed y).y) ≤
          (poiForY env seed y).radius + 3 then
      if maxFuel < fuel + 30 * DT then maxFuel else fuel + 30 * DT
    else fuel
  else fuel

/-- Fuel-exhaustion penalty (line 166): positive speed halves at a fixed
rate while the tank is empty. -/
def speedAfterExhaust (env : JsEnv) (fuel speed : ℚ) : ℚ :=
  if fuel ≤ 0 ∧ 0 < speed then speed * env.powHalf else speed

/-- First half of one per-player simulation step (lines 127-143): idle
timeout, on-road test, longitudinal acceleration, friction, speed clamp,
steering.  Leaves position, distance and fuel untouched. -/
def tickPre (env : JsEnv) (seed : ℤ) (now : ℤ) (p0 : Player) : Player :=
  let p := idleZero now p0
  let cx := roadCenterX env seed p.y
  let onRoad : Bool := decide (|p.x - cx| ≤ 7)
  let aFwd := p.throttle * 8 - p.brake * 10
  let sp := clampSpeed
    ((p.speed + aFwd * DT) * (if onRoad then env.powOn else env.powOff))
  let steerFactor := 0.2 + 0.8 * min (|sp| / 45) 1
  { p with speed := sp, angle := p.angle + p.steer * 1.8 * steerFactor * DT }

/-- The longitudinal displacement `dy = Math.cos(p.angle) * p.speed * DT`
of one step (line 146), computed from the post-steering state. -/
def tickDy (env : JsEnv) (seed : ℤ) (now : ℤ) (p0 : Player) : ℚ :=
  let q := tickPre env seed now p0
  env.cos q.angle * q.speed * DT

/-- One full per-player simulation step: the body of the loop in `tickRoom`
(lines 126-167). -/
def tickPlayer (env : JsEnv) (seed : ℤ) (now : ℤ) (p0 : Player) : Player :=
  let q := tickPre env seed now p0
  let onRoad : Bool := decide (|q.x - roadCenterX env seed q.y| ≤ 7)
  let dx := env.sin q.angle * q.speed * DT
  let dy := env.cos q.angle * q.speed * DT
  let x2 := q.x + dx
  let y2 := q.y + dy
  let dist2 := if 0 < dy then q.distance + dy else q.distance
  let fuel1 := fuelAfterBurn onRoad q.throttle q.speed q.fuel
  let fuel2 := fuelAfterRefuel env seed q.refuel x2 y2 fuel1 q.maxFuel
  let sp5 := speedAfterExhaust env fuel2 q.speed
  { q with x := x2, y := y2, distance := dist2, fuel := fuel2, speed := sp5 }

/-- `tickRoom(room)` (lines 114-180): advance every player, then build the
`state` broadcast from the advanced records. -/
def tickRoom (env : JsEnv) (now : ℤ) (room : Room) : Room × Emit :=
  let room2 := { room with players := room.players.map (tickPlayer env room.seed now) }
  (room2,
   { target := .toRoom room.code,
     payload := .stateTick room2.phase room2.seed (room2.players.map stateEntry) now })

/-- `destroyEmptyStaleRooms()` (lines 103-112): drop rooms that are empty
and older than the TTL. -/
def destroyEmptyStaleRooms (now : ℤ) (s : ServerState) : ServerState :=
  s.filter fun r => !(decide (r.players.length = 0 ∧ ROOM_TTL_MS < now - r.createdAt))

/-- The per-room part of the `setInterval` loop body (lines 182-189): tick
every `running` room in table order, collecting the `state` emissions. -/
def tickAllRooms (env : JsEnv) (now : ℤ) : ServerState → ServerState × List Emit
  | [] => ([], [])
  | r :: rest =>
    let done := tickAllRooms env now rest
    if r.phase = .running then
      let stepped := tickRoom env now r
      (stepped.1 :: done.1, stepped.2 :: done.2)
    else (r :: done.1, done.2)

/-- Whole `setInterval` body (lines 182-189): tick all running rooms, then
sweep empty stale rooms. -/
def onTick (env : JsEnv) (now : ℤ) (s : ServerState) : ServerState × List Emit :=
  let done := tickAllRooms env now s
  (destroyEmptyStaleRooms now done.1, done.2)

/-- `s.slice(0, 18)`: the first 18 characters. -/
def jsSlice18 (s : String) : String := String.mk (s.data.take 18)

/-- `name?.slice(0,18) || dflt`. -/
def nameOrDefault (name : Option String) (dflt : String) : String :=
  match name with
  | some s => if jsSlice18 s = "" then dflt else jsSlice18 s
  | none => dflt

/-- `color || dflt`. -/
def colorOrDefault (color : Option String) (dflt : String) : String :=
  match color with
  | some s => if s = "" then dflt else s
  | none => dflt

/-- `s.toUpperCase()`, character by character. -/
def jsToUpper (s : String) : String := String.mk (s.data.map Char.toUpper)

/-- `s.trim()`: strip leading and trailing whitespace. -/
def jsTrim (s : String) : String :=
  String.mk (((s.data.dropWhile Char.isWhitespace).reverse.dropWhile Char.isWhitespace).reverse)

/-- `(code || "").toUpperCase().trim()` (line 212). -/
def normCode (code : Option String) : String := jsTrim (jsToUpper (code.getD ""))

/-- `createRoom()` plus the rest of the `createRoom` handler (lines 89-101,
200-209).  The fresh `code` and random `seed` drawn inside `createRoom` are
parameters; the `do/while` retry loop guarantees the code is fresh, so the
new room is appended under a new key. -/
def onCreateRoom (conn code : String) (seed : ℤ) (name color : Option String)
    (now : ℤ) (s : ServerState) : ServerState × List Emit :=
  let p0 := makePlayer conn (nameOrDefault name "Driver") (colorOrDefault color "#5ec8f8") now
  let p := { p0 with isHost := true }
  let room : Room :=
    { code := code, createdAt := now, seed := seed, phase := .lobby,
      players := [p], lastTick := now }
  (s ++ [room],
   [{ target := .toConn conn, payload := .joinedSnap (snapshotRoom room) conn },
    { target := .toRoom code, payload := .lobbySnap (snapshotRoom room) }])

/-- The fresh player record built inside the `joinRoom` handler (line 217). -/
def joinedPlayer (conn : String) (name color : Option String) (now : ℤ) : Player :=
  makePlayer conn (nameOrDefault name "Driver") (colorOrDefault color "#f6a93b") now

/-- The room after the `joinRoom` handler inserts the fresh player
(line 218). -/
def roomWithJoin (r : Room) (conn : String) (name color : Option String) (now : ℤ) : Room :=
  { r with players := objSet r.players (joinedPlayer conn name color now) }

/-- The `joinRoom` handler (lines 211-223). -/
def onJoinRoom (conn : String) (codeRaw : Option String) (name color : Option String)
    (now : ℤ) (s : ServerState) : ServerState × List Emit :=
  let code := normCode codeRaw
  match getRoom s code with
  | none => (s, [{ target := .toConn conn, payload := .errorText "Room not found." }])
  | some room =>
    if room.phase ≠ .lobby then
      (s, [{ target := .toConn conn, payload := .errorText "Game already started." }])
    else if 12 ≤ room.players.length then
      (s, [{ target := .toConn conn, payload := .errorText "Room full." }])
    else
      let room2 := roomWithJoin room conn name color now
      (setRoomAt s code room2,
       [{ target := .toConn conn, payload := .joinedSnap (snapshotRoom room2) conn },
        { target := .toRoom code, payload := .lobbySnap (snapshotRoom room2) }])

/-- The `setReady` handler (lines 225-230).  `jc` is the socket-local
`joinedCode` variable. -/
def onSetReady (conn : String) (jc : Option String) (ready : JsVal)
    (s : ServerState) : ServerState × List Emit :=
  match jc with
  | none => (s, [])
  | some c =>
    match getRoom s c with
    | none => (s, [])
    | some r =>
      match findP r.players conn with
      | none => (s, [])
      | some _ =>
        let r2 := { r with players := modPlayer r.players conn fun p => { p with ready := truthy ready } }
        (setRoomAt s c r2, [{ target := .toRoom c, payload := .lobbySnap (snapshotRoom r2) }])

/-- The `startGame` handler (lines 232-238). -/
def onStartGame (conn : String) (jc : Option String)
    (s : ServerState) : ServerState × List Emit :=
  match jc with
  | none => (s, [])
  | some c =>
    match getRoom s c with
    | none => (s, [])
    | some r =>
      match findP r.players conn with
      | none => (s, [])
      | some p =>
        if !p.isHost then (s, [])
        else
          let r2 := { r with phase := .running }
          (setRoomAt s c r2, [{ target := .toRoom c, payload := .startSeed r.seed }])

/-- The `input` handler (lines 240-248). -/
def onInput (conn : String) (jc : Option String) (d : InputData) (now : ℤ)
    (s : ServerState) : ServerState × List Emit :=
  match jc with
  | none => (s, [])
  | some c =>
    match getRoom s c with
    | none => (s, [])
    | some r =>
      match findP r.players conn with
      | none => (s, [])
      | some _ =>
        let r2 := { r with players := modPlayer r.players conn (applyInputP d now) }
        (setRoomAt s c r2, [])

/-- The `leaveRoom` handler (lines 250-257). -/
def onLeaveRoom (conn : String) (jc : Option String) (now : ℤ)
    (s : ServerState) : ServerState × List Emit :=
  match jc with
  | none => (s, [])
  | some c =>
    match getRoom s c with
    | none => (s, [])
    | some r =>
      let ps := objDel r.players conn
      if ps.length = 0 then
        (setRoomAt s c { r with players := ps, createdAt := now - ROOM_TTL_MS - 1 }, [])
      else
        let r2 := { r with players := ps }
        (setRoomAt s c r2,
         [{ target := .toRoom r.code, payload := .lobbySnap (snapshotRoom r2) }])

/-- The host-transfer step of the `disconnect` handler (lines 265-266):
`Object.values(r.players)[0]`, if present, gets the host flag. -/
def promoteFirst : List Player → List Player
  | [] => []
  | q :: rest => { q with isHost := true } :: rest

/-- Lines 262-267 of the `disconnect` handler: read whether the departing
player held the host flag, delete the player, and promote the first
remaining player if so. -/
def departPlayers (ps : List Player) (conn : String) : List Player :=
  if ((findP ps conn).map Player.isHost).getD false then promoteFirst (objDel ps conn)
  else objDel ps conn

/-- The `disconnect` handler (lines 259-274). -/
def onDisconnect (conn : String) (jc : Option String) (now : ℤ)
    (s : ServerState) : ServerState × List Emit :=
  match jc with
  | none => (s, [])
  | some c =>
    match getRoom s c with
    | none => (s, [])
    | some r =>
      let ps2 := departPlayers r.players conn
      if ps2.length = 0 then
        (setRoomAt s c { r with players := ps2, createdAt := now - ROOM_TTL_MS - 1 }, [])
      else
        let r2 := { r with players := ps2 }
        (setRoomAt s c r2,
         [{ target := .toRoom r.code,
            payload := if r.phase = .lobby then .lobbySnap (snapshotRoom r2)
                       else .statePlayersOnly r2.players }])

/-- The `pingCheck` handler (lines 196-198). -/
def onPingCheck (conn : String) (d : JsVal) (s : ServerState) : ServerState × List Emit :=
  (s, [{ target := .toConn conn, payload := .pongEcho d }])

/-- One server event: an inbound message, a disconnect, or one firing of the
tick/sweep interval.  `jc` parameters carry the socket-local `joinedCode`. -/
inductive Op where
  | create (conn code : String) (seed : ℤ) (name color : Option String) (now : ℤ)
  | join (conn : String) (codeRaw : Option String) (name color : Option String) (now : ℤ)
  | setReadyOp (conn : String) (jc : Option String) (ready : JsVal)
  | start (conn : String) (jc : Option String)
  | inputOp (conn : String) (jc : Option String) (d : InputData) (now : ℤ)
  | leave (conn : String) (jc : Option String) (now : ℤ)
  | disconnectOp (conn : String) (jc : Option String) (now : ℤ)
  | ping (conn : String) (d : JsVal)
  | tickSweep (now : ℤ)

/-- Dispatch of one server event to its handler. -/
def applyOp (env : JsEnv) : Op → ServerState → ServerState × List Emit
  | .create conn code seed name color now => onCreateRoom conn code seed name color now
  | .join conn codeRaw name color now => onJoinRoom conn codeRaw name color now
  | .setReadyOp conn jc ready => onSetReady conn jc ready
  | .start conn jc => onStartGame conn jc
  | .inputOp conn jc d now => onInput conn jc d now
  | .leave conn jc now => onLeaveRoom conn jc now
  | .disconnectOp conn jc now => onDisconnect conn jc now
  | .ping conn d => onPingCheck conn d
  | .tickSweep now => onTick env now

/-- One simulation-relevant event for a single room: an `input` message for
one of its members, or one `tickRoom` invocation. -/
inductive SimEvent where
  | msg (conn : String) (d : InputData) (now : ℤ)
  | tick (now : ℤ)

/-- Effect of a sequence of `SimEvent`s on one player record: an `input`
message addressed to that player stores the clamped controls, any other
message leaves it alone, and a tick applies one `tickPlayer` step. -/
def runPlayer (env : JsEnv) (seed : ℤ) : List SimEvent → Player → Player
  | [], p => p
  | .msg conn d now :: rest, p =>
    runPlayer env seed rest (if p.id = conn then applyInputP d now p else p)
  | .tick now :: rest, p =>
    runPlayer env seed rest (tickPlayer env seed now p)

/-! ### Basic record facts -/

theorem idleZero_distance (now : ℤ) (p : Player) : (idleZero now p).distance = p.distance := by
  unfold idleZero; split <;> rfl

theorem idleZero_fuel (now : ℤ) (p : Player) : (idleZero now p).fuel = p.fuel := by
  unfold idleZero; split <;> rfl

theorem idleZero_maxFuel (now : ℤ) (p : Player) : (idleZero now p).maxFuel = p.maxFuel := by
  unfold idleZero; split <;> rfl

theorem tickPre_distance (env : JsEnv) (seed now : ℤ) (p : Player) :
    (tickPre env seed now p).distance = p.distance := by
  simp [tickPre, idleZero_distance]

theorem tickPre_fuel (env : JsEnv) (seed now : ℤ) (p : Player) :
    (tickPre env seed now p).fuel = p.fuel := by
  simp [tickPre, idleZero_fuel]

theorem tickPre_maxFuel (env : JsEnv) (seed now : ℤ) (p : Player) :
    (tickPre env seed now p).maxFuel = p.maxFuel := by
  simp [tickPre, idleZero_maxFuel]

theorem tickPlayer_maxFuel (env : JsEnv) (seed now : ℤ) (p : Player) :
    (tickPlayer env seed now p).maxFuel = p.maxFuel := by
  simp [tickPlayer, tickPre_maxFuel]

theorem tickPlayer_distance (env : JsEnv) (seed now : ℤ) (p : Player) :
    (tickPlayer env seed now p).distance =
      if 0 < tickDy env seed now p then p.distance + tickDy env seed now p
      else p.distance := by
  simp only [tickPlayer, tickDy, tickPre_distance]

theorem tickPlayer_fuel_eq (env : JsEnv) (seed now : ℤ) (p : Player) :
    (tickPlayer env seed now p).fuel =
      (let q := tickPre env seed now p
       let onRoad : Bool := decide (|q.x - roadCenterX env seed q.y| ≤ 7)
       let dx := env.sin q.angle * q.speed * DT
       let dy := env.cos q.angle * q.speed * DT
       fuelAfterRefuel env seed q.refuel (q.x + dx) (q.y + dy)
         (fuelAfterBurn onRoad q.throttle q.speed q.fuel) q.maxFuel) := rfl

theorem tickPlayer_speed_eq (env : JsEnv) (seed now : ℤ) (p : Player) :
    (tickPlayer env seed now p).speed =
      speedAfterExhaust env (tickPlayer env seed now p).fuel
        (tickPre env seed now p).speed := rfl

theorem applyInputP_frame (d : InputData) (now : ℤ) (p : Player) :
    (applyInputP d now p).fuel = p.fuel ∧ (applyInputP d now p).maxFuel = p.maxFuel ∧
    (applyInputP d now p).speed = p.speed ∧ (applyInputP d now p).distance = p.distance ∧
    (applyInputP d now p).id = p.id := by
  refine ⟨rfl, rfl, rfl, rfl, rfl⟩

/-! ### Bounds of the simulation stages -/

theorem clampSpeed_bounds (sp : ℚ) : -10 ≤ clampSpeed sp ∧ clampSpeed sp ≤ 45 := by
  simp only [clampSpeed]
  split_ifs <;> constructor <;> linarith

theorem fuelAfterBurn_bounds (onRoad : Bool) (throttle speed fuel mf : ℚ)
    (h0 : 0 ≤ fuel) (h1 : fuel ≤ mf) :
    0 ≤ fuelAfterBurn onRoad throttle speed fuel ∧
    fuelAfterBurn onRoad throttle speed fuel ≤ mf := by
  cases onRoad
  all_goals
    simp only [fuelAfterBurn]
    norm_num
    split_ifs with hc hneg
    · constructor <;> linarith
    · obtain ⟨ht, hs⟩ := hc
      constructor <;> nlinarith
    · exact ⟨h0, h1⟩

theorem fuelAfterRefuel_bounds (env : JsEnv) (seed : ℤ) (rf : Bool) (x y fuel mf : ℚ)
    (h0 : 0 ≤ fuel) (h1 : fuel ≤ mf) :
    0 ≤ fuelAfterRefuel env seed rf x y fuel mf ∧
    fuelAfterRefuel env seed rf x y fuel mf ≤ mf := by
  simp only [fuelAfterRefuel, DT]
  split_ifs with hflag hnear hcap
  · constructor <;> linarith
  · constructor <;> linarith
  · exact ⟨h0, h1⟩
  · exact ⟨h0, h1⟩

theorem speedAfterExhaust_bounds (env : JsEnv) (fuel sp : ℚ)
    (hp0 : 0 ≤ env.powHalf) (hp1 : env.powHalf ≤ 1)
    (h0 : -10 ≤ sp) (h1 : sp ≤ 45) :
    -10 ≤ speedAfterExhaust env fuel sp ∧ speedAfterExhaust env fuel sp ≤ 45 := by
  unfold speedAfterExhaust
  split
  · next hc =>
    constructor
    · nlinarith [hc.2]
    · nlinarith [hc.2]
  · exact ⟨h0, h1⟩

theorem tickPre_speed_bounds (env : JsEnv) (seed now : ℤ) (p : Player) :
    -10 ≤ (tickPre env seed now p).speed ∧ (tickPre env seed now p).speed ≤ 45 := by
  have h := clampSpeed_bounds
    (((idleZero now p).speed +
        ((idleZero now p).throttle * 8 - (idleZero now p).brake * 10) * DT) *
      (if decide (|(idleZero now p).x - roadCenterX env seed (idleZero now p).y| ≤ 7)
       then env.powOn else env.powOff))
  simpa [tickPre] using h

theorem tickPlayer_speed_bounds (env : JsEnv) (seed now : ℤ) (p : Player)
    (hp0 : 0 ≤ env.powHalf) (hp1 : env.powHalf ≤ 1) :
    -10 ≤ (tickPlayer env seed now p).speed ∧ (tickPlayer env seed now p).speed ≤ 45 := by
  have hq := tickPre_speed_bounds env seed now p
  have := speedAfterExhaust_bounds env (tickPlayer env seed now p).fuel
    (tickPre env seed now p).speed hp0 hp1 hq.1 hq.2
  simpa [tickPlayer_speed_eq] using this

theorem tickPlayer_fuel_bounds (env : JsEnv) (seed now : ℤ) (p : Player)
    (h0 : 0 ≤ p.fuel) (h1 : p.fuel ≤ p.maxFuel) :
    0 ≤ (tickPlayer env seed now p).fuel ∧
    (tickPlayer env seed now p).fuel ≤ (tickPlayer env seed now p).maxFuel := by
  have hq0 : (tickPre env seed now p).fuel = p.fuel := tickPre_fuel env seed now p
  have hq1 : (tickPre env seed now p).maxFuel = p.maxFuel := tickPre_maxFuel env seed now p
  have hb := fuelAfterBurn_bounds
    (decide (|(tickPre env seed now p).x - roadCenterX env seed (tickPre env seed now p).y| ≤ 7))
    (tickPre env seed now p).throttle (tickPre env seed now p).speed
    (tickPre env seed now p).fuel (tickPre env seed now p).maxFuel
    (by rw [hq0]; exact h0) (by rw [hq0, hq1]; exact h1)
  have hr := fuelAfterRefuel_bounds env seed (tickPre env seed now p).refuel
    ((tickPre env seed now p).x + env.sin (tickPre env seed now p).angle * (tickPre env seed now p).speed * DT)
    ((tickPre env seed now p).y + env.cos (tickPre env seed now p).angle * (tickPre env seed now p).speed * DT)
    (fuelAfterBurn
      (decide (|(tickPre env seed now p).x - roadCenterX env seed (tickPre env seed now p).y| ≤ 7))
      (tickPre env seed now p).throttle (tickPre env seed now p).speed
      (tickPre env seed now p).fuel)
    (tickPre env seed now p).maxFuel hb.1 hb.2
  have hfe : (tickPlayer env seed now p).fuel =
      fuelAfterRefuel env seed (tickPre env seed now p).refuel
        ((tickPre env seed now p).x + env.sin (tickPre env seed now p).angle * (tickPre env seed now p).speed * DT)
        ((tickPre env seed now p).y + env.cos (tickPre env seed now p).angle * (tickPre env seed now p).speed * DT)
        (fuelAfterBurn
          (decide (|(tickPre env seed now p).x - roadCenterX env seed (tickPre env seed now p).y| ≤ 7))
          (tickPre env seed now p).throttle (tickPre env seed now p).speed
          (tickPre env seed now p).fuel)
        (tickPre env seed now p).maxFuel := rfl
  rw [hfe, tickPlayer_maxFuel, ← hq1]
  exact hr

/-! ### Room-table lookup lemmas -/

theorem getRoom_append_left {s : ServerState} {c : String} {r : Room} (l : List Room)
    (h : getRoom s c = some r) : getRoom (s ++ l) c = some r := by
  induction s with
  | nil => simp [getRoom] at h
  | cons x rest ih =>
    simp only [getRoom, List.cons_append] at h ⊢
    split at h
    · next hx => simp only [getRoom, hx, if_pos]; exact h
    · next hx => simp only [hx, if_neg, if_false]; exact ih h

theorem getRoom_mem {s : ServerState} {c : String} {r : Room}
    (h : getRoom s c = some r) : r ∈ s ∧ r.code = c := by
  induction s with
  | nil => simp [getRoom] at h
  | cons x rest ih =>
    simp only [getRoom] at h
    split at h
    · next hx =>
      obtain rfl : x = r := by simpa using h
      exact ⟨List.mem_cons_self _ _, hx⟩
    · next hx =>
      obtain ⟨hm, hc⟩ := ih h
      exact ⟨List.mem_cons_of_mem _ hm, hc⟩

theorem getRoom_eq_none {s : ServerState} {c : String}
    (h : c ∉ s.map Room.code) : getRoom s c = none := by
  induction s with
  | nil => rfl
  | cons x rest ih =>
    simp only [List.map_cons, List.mem_cons] at h
    push_neg at h
    simp only [getRoom]
    rw [if_neg (by exact fun hx => h.1 hx.symm)]
    exact ih h.2

theorem getRoom_setRoomAt_self {s : ServerState} {c : String} {r r2 : Room}
    (hc : r2.code = c) (h : getRoom s c = some r) :
    getRoom (setRoomAt s c r2) c = some r2 := by
  induction s with
  | nil => simp [getRoom] at h
  | cons x rest ih =>
    simp only [getRoom, setRoomAt] at h ⊢
    split at h
    · next hx => simp [getRoom, hx, hc]
    · next hx =>
      rw [if_neg hx]
      simp only [getRoom, hx, if_neg, if_false]
      exact ih h

theorem getRoom_setRoomAt_ne {s : ServerState} {c c' : String} {r2 : Room}
    (hc : r2.code = c) (hne : c' ≠ c) :
    getRoom (setRoomAt s c r2) c' = getRoom s c' := by
  induction s with
  | nil => rfl
  | cons x rest ih =>
    simp only [getRoom, setRoomAt]
    split
    · next hx =>
      have h1 : ¬r2.code = c' := fun hh => hne (hh.symm.trans hc)
      have h2 : ¬x.code = c' := fun hh => hne (hh.symm.trans hx)
      simp [getRoom, h1, h2]
    · next hx =>
      by_cases hxc : x.code = c'
      · simp [getRoom, hxc]
      · simp only [getRoom, hxc, if_neg, if_false]
        exact ih

/-- Inversion of a lookup after an in-place room update. -/
theorem getRoom_setRoomAt_inv {s : ServerState} {c c' : String} {r0 r2 r' : Room}
    (h0 : getRoom s c = some r0)
    (h' : getRoom (setRoomAt s c r2) c' = some r')
    (hc : r2.code = c) :
    (c' = c ∧ r' = r2) ∨ (c' ≠ c ∧ getRoom s c' = some r') := by
  by_cases hcc : c' = c
  · subst hcc
    rw [getRoom_setRoomAt_self hc h0] at h'
    exact Or.inl ⟨rfl, by simpa using h'.symm⟩
  · rw [getRoom_setRoomAt_ne hc hcc] at h'
    exact Or.inr ⟨hcc, h'⟩

theorem getRoom_map {s : ServerState} {c : String} (g : Room → Room)
    (hg : ∀ r, (g r).code = r.code) :
    getRoom (s.map g) c = (getRoom s c).map g := by
  induction s with
  | nil => rfl
  | cons x rest ih =>
    simp only [List.map_cons, getRoom, hg x]
    split
    · rfl
    · exact ih

/-- A lookup that still succeeds after a `filter` returns the same room it
returned before, provided room codes are unique. -/
theorem getRoom_filter_nodup {s : ServerState} {c : String} {r0 r' : Room}
    (q : Room → Bool)
    (hnd : (s.map Room.code).Nodup)
    (h0 : getRoom s c = some r0)
    (h' : getRoom (s.filter q) c = some r') : r' = r0 := by
  induction s with
  | nil => simp [getRoom] at h0
  | cons x rest ih =>
    simp only [List.map_cons, List.nodup_cons] at hnd
    obtain ⟨hx_not, hnd_rest⟩ := hnd
    simp only [getRoom] at h0
    by_cases hxc : x.code = c
    · rw [if_pos hxc] at h0
      obtain rfl : x = r0 := by simpa using h0
      by_cases hq : q x
      · rw [List.filter_cons_of_pos hq] at h'
        simp only [getRoom, hxc, if_pos] at h'
        simpa using h'.symm
      · rw [List.filter_cons_of_neg hq] at h'
        exfalso
        obtain ⟨hm, hc⟩ := getRoom_mem h'
        have : r'.code ∈ rest.map Room.code :=
          List.mem_map_of_mem Room.code (List.mem_of_mem_filter hm)
        rw [hc, ← hxc] at this
        exact hx_not this
    · rw [if_neg hxc] at h0
      by_cases hq : q x
      · rw [List.filter_cons_of_pos hq] at h'
        simp only [getRoom, hxc, if_neg, if_false] at h'
        exact ih hnd_rest h0 h'
      · rw [List.filter_cons_of_neg hq] at h'
        exact ih hnd_rest h0 h'

/-! ### Tick-loop lemmas -/

theorem tickRoom_code (env : JsEnv) (now : ℤ) (r : Room) :
    (tickRoom env now r).1.code = r.code := rfl

theorem tickRoom_phase (env : JsEnv) (now : ℤ) (r : Room) :
    (tickRoom env now r).1.phase = r.phase := rfl

theorem tickRoom_players (env : JsEnv) (now : ℤ) (r : Room) :
    (tickRoom env now r).1.players = r.players.map (tickPlayer env r.seed now) := rfl

theorem tickAllRooms_fst (env : JsEnv) (now : ℤ) (s : ServerState) :
    (tickAllRooms env now s).1 =
      s.map (fun r => if r.phase = .running then (tickRoom env now r).1 else r) := by
  induction s with
  | nil => rfl
  | cons x rest ih =>
    simp only [tickAllRooms, List.map_cons]
    split
    · next hx => simp [hx, ih]
    · next hx => simp [hx, ih]

theorem tickAllRooms_snd (env : JsEnv) (now : ℤ) (s : ServerState) :
    (tickAllRooms env now s).2 =
      s.foldr (fun r es => if r.phase = .running then (tickRoom env now r).2 :: es else es) [] := by
  induction s with
  | nil => rfl
  | cons x rest ih =>
    simp only [tickAllRooms, List.foldr_cons]
    split
    · next hx => simp [hx, ih]
    · next hx => simp [hx, ih]

/-! ### Player-object lemmas -/

theorem findP_modPlayer {ps : List Player} {i : String} {p : Player}
    (f : Player → Player) (hf : ∀ q, (f q).id = q.id)
    (h : findP ps i = some p) : findP (modPlayer ps i f) i = some (f p) := by
  induction ps with
  | nil => simp [findP] at h
  | cons x rest ih =>
    simp only [findP, modPlayer] at h ⊢
    split at h
    · next hx =>
      obtain rfl : x = p := by simpa using h
      simp [findP, hx, hf]
    · next hx =>
      rw [if_neg hx]
      simp only [findP, hx, if_neg, if_false]
      exact ih h

/-! ### Per-player simulation sequences -/

theorem runPlayer_fuel_inv (env : JsEnv) (seed : ℤ) (evs : List SimEvent) :
    ∀ p : Player, 0 ≤ p.fuel → p.fuel ≤ p.maxFuel →
      0 ≤ (runPlayer env seed evs p).fuel ∧
      (runPlayer env seed evs p).fuel ≤ (runPlayer env seed evs p).maxFuel := by
  induction evs with
  | nil => exact fun p h0 h1 => ⟨h0, h1⟩
  | cons e rest ih =>
    intro p h0 h1
    cases e with
    | msg conn d now =>
      simp only [runPlayer]
      split
      · exact ih _ h0 h1
      · exact ih _ h0 h1
    | tick now =>
      simp only [runPlayer]
      obtain ⟨a, b⟩ := tickPlayer_fuel_bounds env seed now p h0 h1
      exact ih _ a b

theorem runPlayer_append (env : JsEnv) (seed : ℤ) (a b : List SimEvent) (p : Player) :
    runPlayer env seed (a ++ b) p = runPlayer env seed b (runPlayer env seed a p) := by
  induction a generalizing p with
  | nil => rfl
  | cons e rest ih => cases e <;> simp only [runPlayer, List.cons_append] <;> exact ih _

theorem tickPlayer_distance_le (env : JsEnv) (seed now : ℤ) (p : Player) :
    p.distance ≤ (tickPlayer env seed now p).distance := by
  rw [tickPlayer_distance]
  split
  · next h => linarith
  · exact le_refl _

theorem runPlayer_distance_le (env : JsEnv) (seed : ℤ) (evs : List SimEvent) :
    ∀ p : Player, p.distance ≤ (runPlayer env seed evs p).distance := by
  induction evs with
  | nil => exact fun p => le_refl _
  | cons e rest ih =>
    intro p
    cases e with
    | msg conn d now =>
      simp only [runPlayer]
      split
      · exact ih _
      · exact ih _
    | tick now =>
      simp only [runPlayer]
      exact le_trans (tickPlayer_distance_le env seed now p) (ih _)

/-! ### Concrete fixtures -/

/-- A concrete stand-in for the ambient math library, used to evaluate the
model on closed inputs. -/
def envZero : JsEnv :=
  { sin := fun _ => 0, cos := fun _ => 1, hypot := fun _ _ => 0,
    powOn := 1, powOff := 1, powHalf := 1 / 2 }

def pHostA : Player := { makePlayer "A" "Ann" "#111111" 0 with isHost := true }

def pPlainB : Player := makePlayer "B" "Bob" "#222222" 0

def lobbyRoomFx : Room :=
  { code := "QQQQQQ", createdAt := 0, seed := 7, phase := .lobby,
    players := [pHostA, pPlainB], lastTick := 0 }

def runningRoomFx : Room := { lobbyRoomFx with code := "RUNRUN", phase := .running }

def playersTwelve : List Player :=
  (List.range 12).map fun i => makePlayer (toString i) "P" "#000000" 0

def fullRoomFx : Room :=
  { lobbyRoomFx with code := "FULLRM", players := playersTwelve }

def sLobbyFx : ServerState := [lobbyRoomFx]

def sRunningFx : ServerState := [runningRoomFx]

example : (runPlayer envZero 7 [.tick 0] pPlainB).fuel = 100 := by decide
example : getRoom sLobbyFx "QQQQQQ" = some lobbyRoomFx := by decide
example :
    (applyOp envZero (.leave "A" (some "QQQQQQ") 5) sLobbyFx).1 =
      [{ lobbyRoomFx with players := [pPlainB] }] := by decide

/-! ### Claim C2: fuel and speed boundedness -/

/-- Claim C2 (confirmed): for every player and every sequence of simulation
steps — `tickRoom` applies the per-player step `tickPlayer` to every member,
and arbitrary control inputs may arrive between steps — fuel stays within
`[0, maxFuel]` throughout, and after every step ending in a tick the speed
lies within `[-10, 45]`.  The only facts needed about the ambient math
library are `0 ≤ Math.pow(0.5, DT) ≤ 1`. -/
theorem claim2_fuel_speed_bounded (env : JsEnv) (seed : ℤ)
    (evs pre : List SimEvent) (now : ℤ) (p : Player)
    (hp0 : 0 ≤ env.powHalf) (hp1 : env.powHalf ≤ 1)
    (hf0 : 0 ≤ p.fuel) (hf1 : p.fuel ≤ p.maxFuel) :
    (0 ≤ (runPlayer env seed evs p).fuel ∧
      (runPlayer env seed evs p).fuel ≤ (runPlayer env seed evs p).maxFuel) ∧
    (-10 ≤ (runPlayer env seed (pre ++ [.tick now]) p).speed ∧
      (runPlayer env seed (pre ++ [.tick now]) p).speed ≤ 45) ∧
    (∀ r : Room, (tickRoom env now r).1.players = r.players.map (tickPlayer env r.seed now)) := by
  refine ⟨runPlayer_fuel_inv env seed evs p hf0 hf1, ?_, fun r => rfl⟩
  rw [runPlayer_append]
  simp only [runPlayer]
  exact tickPlayer_speed_bounds env seed now _ hp0 hp1

/-- Witness for C2 at a concrete environment, room seed, step list and
player. -/
theorem claim2_fuel_speed_bounded_witness :
    (0 ≤ (runPlayer envZero 7 [SimEvent.tick 0] pPlainB).fuel ∧
      (runPlayer envZero 7 [SimEvent.tick 0] pPlainB).fuel ≤
        (runPlayer envZero 7 [SimEvent.tick 0] pPlainB).maxFuel) ∧
    (-10 ≤ (runPlayer envZero 7 ([] ++ [SimEvent.tick 0]) pPlainB).speed ∧
      (runPlayer envZero 7 ([] ++ [SimEvent.tick 0]) pPlainB).speed ≤ 45) ∧
    (∀ r : Room, (tickRoom envZero 0 r).1.players = r.players.map (tickPlayer envZero r.seed 0)) :=
  claim2_fuel_speed_bounded envZero 7 [SimEvent.tick 0] [] 0 pPlainB
    (by norm_num [envZero]) (by norm_num [envZero]) (by decide) (by decide)

/-! ### Claim C8: monotone cumulative distance -/

/-- Claim C8 (confirmed): each tick adds the longitudinal displacement `dy`
to the cumulative distance exactly when `dy > 0` and leaves it unchanged
otherwise, so across any sequence of simulation steps the recorded distance
never decreases. -/
theorem claim8_distance_monotone (env : JsEnv) (seed now : ℤ) (p : Player)
    (evs : List SimEvent) :
    ((tickPlayer env seed now p).distance =
      if 0 < tickDy env seed now p then p.distance + tickDy env seed now p
      else p.distance) ∧
    p.distance ≤ (runPlayer env seed evs p).distance :=
  ⟨tickPlayer_distance env seed now p, runPlayer_distance_le env seed evs p⟩

/-! ### Claim C5: world-generator determinism -/

/-- Claim C5 (confirmed): `roadCenterX` and `poiForY` are, in this embedding,
pure functions of the ambient math library, the seed and `y` — their source
bodies reference nothing but their parameters and the stateless library
calls, so the translation carries no server state at all.  Hence any two
calls with the same seed and `y`, whether inside one run or in two runs
whose room tables differ arbitrarily, return identical results. -/
theorem claim5_worldgen_deterministic (env : JsEnv) (s1 s2 : ServerState)
    (r1 r2 : Room) (h1 : r1 ∈ s1) (h2 : r2 ∈ s2) (hs : r1.seed = r2.seed) (y : ℚ) :
    roadCenterX env r1.seed y = roadCenterX env r2.seed y ∧
    poiForY env r1.seed y = poiForY env r2.seed y := by
  rw [hs]
  exact ⟨rfl, rfl⟩

/-- Witness for C5: two distinct room tables whose rooms share a seed. -/
theorem claim5_worldgen_deterministic_witness :
    roadCenterX envZero lobbyRoomFx.seed 0 = roadCenterX envZero runningRoomFx.seed 0 ∧
    poiForY envZero lobbyRoomFx.seed 0 = poiForY envZero runningRoomFx.seed 0 :=
  claim5_worldgen_deterministic envZero sLobbyFx sRunningFx lobbyRoomFx runningRoomFx
    (by decide) (by decide) (by decide) 0

/-! ### Claim C6: POI structure -/

/-- The POI lookup exactly as §4.1 of the spec words it: take the 800 m
segment index `k` containing `y`, derive the hash for it with `seed + 9999`,
choose the type from the bands `[0,0.22) ↦ gas`, `[0.22,0.38) ↦ hotel`,
`[0.38,0.54) ↦ store`, `[0.54,0.68) ↦ town`, else none, place the POI 17 m
laterally from the road centreline on the side given by the hash being
below/above 0.5, at the segment's longitudinal midpoint, with radius 22 for
a town and 10 otherwise.  A second, spec-side definition used only to state
the refinement claim C6 against the code's `poiForY`. -/
def poiForYSpec (env : JsEnv) (seed : ℤ) (y : ℚ) : Poi :=
  let k : ℤ := ⌊y / 800⌋
  let r := noise1 env (seed + 9999) (k : ℚ)
  let t : PoiType :=
    if r < 0.22 then .gas
    else if r < 0.38 then .hotel
    else if r < 0.54 then .store
    else if r < 0.68 then .town
    else .none
  { k := k, type := t,
    x := roadCenterX env seed ((k : ℚ) * 800 + 400) + (if r < 0.5 then -17 else 17),
    y := (k : ℚ) * 800 + 400,
    radius := if t = .town then 22 else 10 }

/-- Claim C6 (confirmed): `poiForY` returns, for every seed and `y`, exactly
the POI the spec describes — segment hash with `seed + 9999`, the four
probability bands, the 17 m lateral offset on the side picked by the hash
against 0.5, the segment midpoint, radius 22 for towns and 10 otherwise —
and being a total function it always returns a value, including type
`none`. -/
theorem claim6_poi_structure (env : JsEnv) (seed : ℤ) (y : ℚ) :
    poiForY env seed y = poiForYSpec env seed y := by
  simp only [poiForY, poiForYSpec]
  norm_num

/-! ### Claim C7: input coercion -/

theorem clamp01_bounds (q : ℚ) : 0 ≤ clamp01 q ∧ clamp01 q ≤ 1 :=
  ⟨le_max_left _ _, max_le (by norm_num) (min_le_left _ _)⟩

theorem clampSteer_bounds (q : ℚ) : -1 ≤ clampSteer q ∧ clampSteer q ≤ 1 :=
  ⟨le_max_left _ _, max_le (by norm_num) (min_le_left _ _)⟩

/-- Claim C7 (confirmed): an `input` message with arbitrary — possibly
missing, non-numeric or out-of-range — fields applied to an existing player
is never rejected: it stores throttle and brake clamped into `[0,1]`, steer
clamped into `[-1,1]`, refuel coerced to a boolean, stamps the last-input
time, and emits nothing. -/
theorem claim7_input_coerced (env : JsEnv) (s : ServerState) (conn c : String)
    (d : InputData) (now : ℤ) (r : Room) (p : Player)
    (h : getRoom s c = some r) (hp : findP r.players conn = some p) :
    (applyOp env (.inputOp conn (some c) d now) s).2 = [] ∧
    ∃ r2 p2,
      getRoom (applyOp env (.inputOp conn (some c) d now) s).1 c = some r2 ∧
      findP r2.players conn = some p2 ∧
      p2 = applyInputP d now p ∧
      0 ≤ p2.throttle ∧ p2.throttle ≤ 1 ∧
      0 ≤ p2.brake ∧ p2.brake ≤ 1 ∧
      -1 ≤ p2.steer ∧ p2.steer ≤ 1 ∧
      p2.refuel = truthy d.refuel ∧
      p2.lastHeard = now := by
  have hcode : r.code = c := (getRoom_mem h).2
  simp only [applyOp, onInput, h, hp]
  refine ⟨by trivial, { r with players := modPlayer r.players conn (applyInputP d now) },
    applyInputP d now p, ?_, ?_, by trivial, ?_⟩
  · exact getRoom_setRoomAt_self hcode h
  · exact findP_modPlayer (applyInputP d now) (fun q => rfl) hp
  · refine ⟨(clamp01_bounds _).1, (clamp01_bounds _).2,
      (clamp01_bounds _).1, (clamp01_bounds _).2,
      (clampSteer_bounds _).1, (clampSteer_bounds _).2, rfl, rfl⟩

/-- Witness for C7: out-of-range, non-numeric and numeric refuel fields on a
concrete room. -/
theorem claim7_input_coerced_witness :
    (applyOp envZero (.inputOp "B" (some "QQQQQQ") ⟨.num 7, .nan, .num (-5), .num 3⟩ 99) sLobbyFx).2 = [] ∧
    ∃ r2 p2,
      getRoom (applyOp envZero (.inputOp "B" (some "QQQQQQ") ⟨.num 7, .nan, .num (-5), .num 3⟩ 99) sLobbyFx).1 "QQQQQQ" = some r2 ∧
      findP r2.players "B" = some p2 ∧
      p2 = applyInputP ⟨.num 7, .nan, .num (-5), .num 3⟩ 99 pPlainB ∧
      0 ≤ p2.throttle ∧ p2.throttle ≤ 1 ∧
      0 ≤ p2.brake ∧ p2.brake ≤ 1 ∧
      -1 ≤ p2.steer ∧ p2.steer ≤ 1 ∧
      p2.refuel = truthy (JsVal.num 3) ∧
      p2.lastHeard = 99 :=
  claim7_input_coerced envZero sLobbyFx "B" "QQQQQQ" ⟨.num 7, .nan, .num (-5), .num 3⟩ 99
    lobbyRoomFx pPlainB (by decide) (by decide)

/-! ### Claim C10: ready flag has no influence -/

/-- Claim C10 (confirmed): `startGame` moves the room to `running` whenever
the caller is the host, with no condition on any player's ready flag (the
room and its players are universally quantified, so the ready values are
arbitrary) and without touching the player list; `setReady` changes exactly
the targeted player's ready field, leaving that player's position, speed,
fuel, distance and host flag, every other player, and the room's phase and
seed unchanged. -/
theorem claim10_ready_no_influence (env : JsEnv) (s : ServerState)
    (conn c : String) (rdy : JsVal) (r : Room) (p : Player)
    (h : getRoom s c = some r) (hp : findP r.players conn = some p) :
    (p.isHost = true →
      ∃ r2, getRoom (applyOp env (.start conn (some c)) s).1 c = some r2 ∧
        r2.phase = .running ∧ r2.seed = r.seed ∧ r2.players = r.players ∧
        (applyOp env (.start conn (some c)) s).2 =
          [{ target := .toRoom c, payload := .startSeed r.seed }]) ∧
    (∃ r2 p2, getRoom (applyOp env (.setReadyOp conn (some c) rdy) s).1 c = some r2 ∧
      r2.phase = r.phase ∧ r2.seed = r.seed ∧ r2.code = r.code ∧
      r2.players = modPlayer r.players conn (fun q => { q with ready := truthy rdy }) ∧
      findP r2.players conn = some p2 ∧
      p2.ready = truthy rdy ∧ p2.x = p.x ∧ p2.y = p.y ∧ p2.speed = p.speed ∧
      p2.fuel = p.fuel ∧ p2.distance = p.distance ∧ p2.isHost = p.isHost) := by
  have hcode : r.code = c := (getRoom_mem h).2
  constructor
  · intro hHost
    simp only [applyOp, onStartGame, h, hp, hHost, Bool.not_true]
    refine ⟨{ r with phase := .running }, ?_, rfl, rfl, rfl, rfl⟩
    exact getRoom_setRoomAt_self hcode h
  · simp only [applyOp, onSetReady, h, hp]
    refine ⟨{ r with players := modPlayer r.players conn (fun q => { q with ready := truthy rdy }) },
      { p with ready := truthy rdy }, ?_, rfl, rfl, rfl, rfl, ?_, ?_⟩
    · exact getRoom_setRoomAt_self hcode h
    · exact findP_modPlayer _ (fun q => rfl) hp
    · exact ⟨rfl, rfl, rfl, rfl, rfl, rfl, rfl⟩

/-- Witness for C10: the host starts a lobby room in which no player is
ready, and a ready toggle on a concrete player. -/
theorem claim10_ready_no_influence_witness :
    ((pHostA.isHost = true →
      ∃ r2, getRoom (applyOp envZero (.start "A" (some "QQQQQQ")) sLobbyFx).1 "QQQQQQ" = some r2 ∧
        r2.phase = .running ∧ r2.seed = lobbyRoomFx.seed ∧ r2.players = lobbyRoomFx.players ∧
        (applyOp envZero (.start "A" (some "QQQQQQ")) sLobbyFx).2 =
          [{ target := .toRoom "QQQQQQ", payload := .startSeed lobbyRoomFx.seed }]) ∧
    (∃ r2 p2, getRoom (applyOp envZero (.setReadyOp "A" (some "QQQQQQ") (.num 1)) sLobbyFx).1 "QQQQQQ" = some r2 ∧
      r2.phase = lobbyRoomFx.phase ∧ r2.seed = lobbyRoomFx.seed ∧ r2.code = lobbyRoomFx.code ∧
      r2.players = modPlayer lobbyRoomFx.players "A" (fun q => { q with ready := truthy (.num 1) }) ∧
      findP r2.players "A" = some p2 ∧
      p2.ready = truthy (.num 1) ∧ p2.x = pHostA.x ∧ p2.y = pHostA.y ∧ p2.speed = pHostA.speed ∧
      p2.fuel = pHostA.fuel ∧ p2.distance = pHostA.distance ∧ p2.isHost = pHostA.isHost)) :=
  claim10_ready_no_influence envZero sLobbyFx "A" "QQQQQQ" (.num 1) lobbyRoomFx pHostA
    (by decide) (by decide)

/-! ### Claim C4: joinRoom error handling -/

/-- Claim C4 (confirmed): `joinRoom` fails with the not-found message when
the (normalised) code is unknown, with the already-started message when the
room's phase is not `lobby`, and with the room-full message when the room
already holds 12 or more players; in each failure case the whole room table
is returned unchanged — no player record anywhere is created or modified —
and the only emission is the error text to the requesting connection.  On
success a new non-host player is appended and the `joined`/`lobby` messages
carry a snapshot of the updated room. -/
theorem claim4_joinRoom_errors (env : JsEnv) (s : ServerState) (conn : String)
    (codeRaw name color : Option String) (now : ℤ) :
    (getRoom s (normCode codeRaw) = none →
      applyOp env (.join conn codeRaw name color now) s =
        (s, [{ target := .toConn conn, payload := .errorText "Room not found." }])) ∧
    (∀ r, getRoom s (normCode codeRaw) = some r → r.phase ≠ .lobby →
      applyOp env (.join conn codeRaw name color now) s =
        (s, [{ target := .toConn conn, payload := .errorText "Game already started." }])) ∧
    (∀ r, getRoom s (normCode codeRaw) = some r → r.phase = .lobby →
        12 ≤ r.players.length →
      applyOp env (.join conn codeRaw name color now) s =
        (s, [{ target := .toConn conn, payload := .errorText "Room full." }])) ∧
    (∀ r, getRoom s (normCode codeRaw) = some r → r.phase = .lobby →
        r.players.length < 12 →
      (joinedPlayer conn name color now).isHost = false ∧
      (roomWithJoin r conn name color now).players = objSet r.players (joinedPlayer conn name color now) ∧
      applyOp env (.join conn codeRaw name color now) s =
        (setRoomAt s (normCode codeRaw) (roomWithJoin r conn name color now),
         [{ target := .toConn conn,
            payload := .joinedSnap (snapshotRoom (roomWithJoin r conn name color now)) conn },
          { target := .toRoom (normCode codeRaw),
            payload := .lobbySnap (snapshotRoom (roomWithJoin r conn name color now)) }])) := by
  refine ⟨?_, ?_, ?_, ?_⟩
  · intro h
    simp only [applyOp, onJoinRoom, h]
  · intro r h hph
    simp only [applyOp, onJoinRoom, h]
    rw [if_pos hph]
  · intro r h hph hfull
    simp only [applyOp, onJoinRoom, h]
    rw [if_neg (fun hc => hc hph), if_pos hfull]
  · intro r h hph hlt
    simp only [applyOp, onJoinRoom, h]
    rw [if_neg (fun hc => hc hph), if_neg (not_le.mpr hlt)]
    exact ⟨rfl, rfl, rfl⟩

/-- Witness for C4: a join against an empty table, against a running room,
against a full room, and a successful join. -/
theorem claim4_joinRoom_errors_witness :
    (applyOp envZero (.join "Z" (some "nope") none none 0) ([] : ServerState) =
      (([] : ServerState), [{ target := .toConn "Z", payload := .errorText "Room not found." }])) ∧
    (applyOp envZero (.join "Z" (some "RUNRUN") none none 0) sRunningFx =
      (sRunningFx, [{ target := .toConn "Z", payload := .errorText "Game already started." }])) ∧
    (applyOp envZero (.join "Z" (some "FULLRM") none none 0) [fullRoomFx] =
      ([fullRoomFx], [{ target := .toConn "Z", payload := .errorText "Room full." }])) ∧
    ((joinedPlayer "Z" none none 3).isHost = false ∧
      (roomWithJoin lobbyRoomFx "Z" none none 3).players =
        objSet lobbyRoomFx.players (joinedPlayer "Z" none none 3) ∧
      applyOp envZero (.join "Z" (some "QQQQQQ") none none 3) sLobbyFx =
        (setRoomAt sLobbyFx (normCode (some "QQQQQQ")) (roomWithJoin lobbyRoomFx "Z" none none 3),
         [{ target := .toConn "Z",
            payload := .joinedSnap (snapshotRoom (roomWithJoin lobbyRoomFx "Z" none none 3)) "Z" },
          { target := .toRoom (normCode (some "QQQQQQ")),
            payload := .lobbySnap (snapshotRoom (roomWithJoin lobbyRoomFx "Z" none none 3)) }])) :=
  ⟨(claim4_joinRoom_errors envZero [] "Z" (some "nope") none none 0).1 (by decide),
   (claim4_joinRoom_errors envZero sRunningFx "Z" (some "RUNRUN") none none 0).2.1
      runningRoomFx (by decide) (by decide),
   (claim4_joinRoom_errors envZero [fullRoomFx] "Z" (some "FULLRM") none none 0).2.2.1
      fullRoomFx (by decide) (by decide) (by decide),
   (claim4_joinRoom_errors envZero sLobbyFx "Z" (some "QQQQQQ") none none 3).2.2.2
      lobbyRoomFx (by decide) (by decide) (by decide)⟩

/-! ### Claim C1: host handoff on departure -/

/-- Counterexample to claim C1: in a two-player room whose host is "A"
(first in iteration order), an explicit `leaveRoom` by the host leaves the
remaining, non-empty room with no host at all — the sole survivor "B" still
has `isHost = false` — whereas an abrupt disconnect at the same state does
transfer the flag to "B".  So the host flag does not transfer on the
explicit-leave path, and the two departure paths are not identical. -/
theorem claim1_host_handoff_counterexample :
    (getRoom (applyOp envZero (.leave "A" (some "QQQQQQ") 5) sLobbyFx).1 "QQQQQQ").map
        (fun r => r.players.map fun p => (p.id, p.isHost)) = some [("B", false)] ∧
    (getRoom (applyOp envZero (.disconnectOp "A" (some "QQQQQQ") 5) sLobbyFx).1 "QQQQQQ").map
        (fun r => r.players.map fun p => (p.id, p.isHost)) = some [("B", true)] := by
  decide

/-- Claim C1 (corrected): only the abrupt-disconnect path performs the host
handoff — when the departing player held the host flag and the room stays
non-empty, the first remaining player in registry iteration order becomes
host.  The explicit `leaveRoom` path removes the player and leaves every
remaining player's host flag exactly as it was, so a room whose host leaves
explicitly is left with no host. -/
theorem claim1_host_handoff_amended (env : JsEnv) (s : ServerState)
    (conn c : String) (now : ℤ) (r : Room)
    (h : getRoom s c = some r) :
    (objDel r.players conn ≠ [] →
      ∃ r2, getRoom (applyOp env (.leave conn (some c) now) s).1 c = some r2 ∧
        r2.players = objDel r.players conn ∧ r2.phase = r.phase) ∧
    (∀ p q rest, findP r.players conn = some p → p.isHost = true →
      objDel r.players conn = q :: rest →
      ∃ r2, getRoom (applyOp env (.disconnectOp conn (some c) now) s).1 c = some r2 ∧
        r2.players = { q with isHost := true } :: rest ∧ r2.phase = r.phase) := by
  have hcode : r.code = c := (getRoom_mem h).2
  constructor
  · intro hne
    simp only [applyOp, onLeaveRoom, h]
    rw [if_neg (by simpa [List.length_eq_zero] using hne)]
    exact ⟨{ r with players := objDel r.players conn },
      getRoom_setRoomAt_self hcode h, rfl, rfl⟩
  · intro p q rest hp hHost hdel
    have hdep : departPlayers r.players conn = { q with isHost := true } :: rest := by
      rw [departPlayers, hp, hdel]
      simp [hHost, promoteFirst]
    simp only [applyOp, onDisconnect, h, hdep]
    rw [if_neg (by simp)]
    exact ⟨{ r with players := { q with isHost := true } :: rest },
      getRoom_setRoomAt_self hcode h, rfl, rfl⟩

/-- Witness for the amended C1 at the concrete two-player room. -/
theorem claim1_host_handoff_amended_witness :
    (∃ r2, getRoom (applyOp envZero (.leave "A" (some "QQQQQQ") 5) sLobbyFx).1 "QQQQQQ" = some r2 ∧
      r2.players = objDel lobbyRoomFx.players "A" ∧ r2.phase = lobbyRoomFx.phase) ∧
    (∃ r2, getRoom (applyOp envZero (.disconnectOp "A" (some "QQQQQQ") 5) sLobbyFx).1 "QQQQQQ" = some r2 ∧
      r2.players = { pPlainB with isHost := true } :: [] ∧ r2.phase = lobbyRoomFx.phase) :=
  ⟨(claim1_host_handoff_amended envZero sLobbyFx "A" "QQQQQQ" 5 lobbyRoomFx (by decide)).1
      (by decide),
   (claim1_host_handoff_amended envZero sLobbyFx "A" "QQQQQQ" 5 lobbyRoomFx (by decide)).2
      pHostA pPlainB [] (by decide) (by decide) (by decide)⟩

/-! ### Claim C9: broadcasts and snapshots -/

/-- Payloads of room-state broadcasts: the `lobby`, `joined` and `state`
messages (both the tick-built `state` payload and the players-only object
the disconnect handler sends on a running room). -/
def isRoomStateMsg : OutPayload → Bool
  | .lobbySnap _ => true
  | .joinedSnap _ _ => true
  | .stateTick _ _ _ _ => true
  | .statePlayersOnly _ => true
  | _ => false

/-- A payload derived from a Room Registry snapshot of some room: a `lobby`
or `joined` message carrying `snapshotRoom` of that room, or a tick `state`
payload carrying that room's phase, seed and projected per-player entries. -/
def SnapshotDerived (pl : OutPayload) : Prop :=
  ∃ r : Room,
    pl = .lobbySnap (snapshotRoom r) ∨
    (∃ pid, pl = .joinedSnap (snapshotRoom r) pid) ∨
    (∃ t, pl = .stateTick r.phase r.seed (r.players.map stateEntry) t)

/-- Every emission of the tick loop is the `state` emission of one running
room. -/
theorem tickAllRooms_mem_snd {env : JsEnv} {now : ℤ} {s : ServerState} {e : Emit}
    (he : e ∈ (tickAllRooms env now s).2) :
    ∃ r, r ∈ s ∧ r.phase = .running ∧ e = (tickRoom env now r).2 := by
  induction s with
  | nil => simp [tickAllRooms] at he
  | cons x rest ih =>
    simp only [tickAllRooms] at he
    split at he
    · next hx =>
      simp only [List.mem_cons] at he
      rcases he with he | he
      · exact ⟨x, List.mem_cons_self _ _, hx, he⟩
      · obtain ⟨r, hr, hrun, hee⟩ := ih he
        exact ⟨r, List.mem_cons_of_mem _ hr, hrun, hee⟩
    · obtain ⟨r, hr, hrun, hee⟩ := ih he
      exact ⟨r, List.mem_cons_of_mem _ hr, hrun, hee⟩

/-- Counterexample to claim C9: the disconnect of a member of a running room
produces a `state` broadcast whose payload is the raw remaining player
records — an object with only a `players` field — and that payload is not
derived from any room snapshot. -/
theorem claim9_snapshot_counterexample :
    (applyOp envZero (.disconnectOp "A" (some "RUNRUN") 5) sRunningFx).2 =
      [{ target := .toRoom "RUNRUN",
         payload := .statePlayersOnly [{ pPlainB with isHost := true }] }] ∧
    ¬ SnapshotDerived (.statePlayersOnly [{ pPlainB with isHost := true }]) := by
  constructor
  · decide
  · rintro ⟨r, hr | ⟨pid, hr⟩ | ⟨t, hr⟩⟩ <;> exact OutPayload.noConfusion hr

/-- Claim C9 (corrected): every room-state broadcast (`lobby`, `joined` and
`state` messages) produced by any handler is derived from a Room Registry
snapshot of a room, with exactly one exception: the `state` broadcast the
disconnect handler sends for a running room, which carries the raw internal
player records instead. -/
theorem claim9_snapshot_amended (env : JsEnv) (op : Op) (s : ServerState) (e : Emit)
    (he : e ∈ (applyOp env op s).2) (hk : isRoomStateMsg e.payload = true) :
    SnapshotDerived e.payload ∨
    (∃ conn jc now ps, op = .disconnectOp conn jc now ∧
      e.payload = .statePlayersOnly ps) := by
  cases op with
  | create conn code seed name color now =>
    simp only [applyOp, onCreateRoom, List.mem_cons, List.mem_singleton] at he
    rcases he with he | he | he
    · subst he; exact Or.inl ⟨_, Or.inr (Or.inl ⟨conn, rfl⟩)⟩
    · subst he; exact Or.inl ⟨_, Or.inl rfl⟩
    · cases he
  | join conn codeRaw name color now =>
    simp only [applyOp, onJoinRoom] at he
    rcases hm : getRoom s (normCode codeRaw) with _ | room
    · simp only [hm, List.mem_singleton] at he
      subst he
      simp [isRoomStateMsg] at hk
    · simp only [hm] at he
      split at he
      · simp only [List.mem_singleton] at he
        subst he
        simp [isRoomStateMsg] at hk
      · split at he
        · simp only [List.mem_singleton] at he
          subst he
          simp [isRoomStateMsg] at hk
        · simp only [List.mem_cons, List.mem_singleton] at he
          rcases he with he | he | he
          · subst he; exact Or.inl ⟨_, Or.inr (Or.inl ⟨conn, rfl⟩)⟩
          · subst he; exact Or.inl ⟨_, Or.inl rfl⟩
          · cases he
  | setReadyOp conn jc rdy =>
    cases jc with
    | none => simp [applyOp, onSetReady] at he
    | some c =>
      simp only [applyOp, onSetReady] at he
      rcases hm : getRoom s c with _ | r
      · simp [hm] at he
      · simp only [hm] at he
        rcases hp : findP r.players conn with _ | p
        · simp [hp] at he
        · simp only [hp, List.mem_singleton] at he
          subst he
          exact Or.inl ⟨_, Or.inl rfl⟩
  | start conn jc =>
    cases jc with
    | none => simp [applyOp, onStartGame] at he
    | some c =>
      simp only [applyOp, onStartGame] at he
      rcases hm : getRoom s c with _ | r
      · simp [hm] at he
      · simp only [hm] at he
        rcases hp : findP r.players conn with _ | p
        · simp [hp] at he
        · simp only [hp] at he
          split at he
          · simp at he
          · simp only [List.mem_singleton] at he
            subst he
            simp [isRoomStateMsg] at hk
  | inputOp conn jc d now =>
    cases jc with
    | none => simp [applyOp, onInput] at he
    | some c =>
      simp only [applyOp, onInput] at he
      rcases hm : getRoom s c with _ | r
      · simp [hm] at he
      · simp only [hm] at he
        rcases hp : findP r.players conn with _ | p
        · simp [hp] at he
        · simp [hp] at he
  | leave conn jc now =>
    cases jc with
    | none => simp [applyOp, onLeaveRoom] at he
    | some c =>
      simp only [applyOp, onLeaveRoom] at he
      rcases hm : getRoom s c with _ | r
      · simp [hm] at he
      · simp only [hm] at he
        split at he
        · simp at he
        · simp only [List.mem_singleton] at he
          subst he
          exact Or.inl ⟨_, Or.inl rfl⟩
  | disconnectOp conn jc now =>
    cases jc with
    | none => simp [applyOp, onDisconnect] at he
    | some c =>
      simp only [applyOp, onDisconnect] at he
      rcases hm : getRoom s c with _ | r
      · simp [hm] at he
      · simp only [hm] at he
        split at he
        · simp at he
        · simp only [List.mem_singleton] at he
          subst he
          by_cases hph : r.phase = .lobby
          · rw [if_pos hph]
            exact Or.inl ⟨_, Or.inl rfl⟩
          · rw [if_neg hph]
            exact Or.inr ⟨conn, some c, now, _, rfl, rfl⟩
  | ping conn d =>
    simp only [applyOp, onPingCheck, List.mem_singleton] at he
    subst he
    simp [isRoomStateMsg] at hk
  | tickSweep now =>
    simp only [applyOp, onTick] at he
    obtain ⟨r, _hr, _hrun, hee⟩ := tickAllRooms_mem_snd he
    subst hee
    exact Or.inl ⟨(tickRoom env now r).1, Or.inr (Or.inr ⟨now, rfl⟩)⟩

/-- Witness for the amended C9: a `setReady` broadcast on the concrete
lobby room is snapshot-derived. -/
theorem claim9_snapshot_amended_witness :
    SnapshotDerived
      ({ target := .toRoom "QQQQQQ",
         payload := .lobbySnap (snapshotRoom
           { lobbyRoomFx with
             players := modPlayer lobbyRoomFx.players "A" fun p => { p with ready := true } }) } : Emit).payload ∨
    (∃ conn jc now ps, (Op.setReadyOp "A" (some "QQQQQQ") (.num 1)) = .disconnectOp conn jc now ∧
      ({ target := .toRoom "QQQQQQ",
         payload := .lobbySnap (snapshotRoom
           { lobbyRoomFx with
             players := modPlayer lobbyRoomFx.players "A" fun p => { p with ready := true } }) } : Emit).payload =
        .statePlayersOnly ps) :=
  claim9_snapshot_amended envZero (.setReadyOp "A" (some "QQQQQQ") (.num 1)) sLobbyFx
    _ (by decide) (by decide)

/-! ### Claim C3: room phase never reverts -/

/-- Claim C3 (confirmed): no server operation — create, join, setReady,
startGame, input, leaveRoom, disconnect, ping, or the tick/sweep loop —
ever moves a `running` room back to `lobby`: if a room with a given code is
`running` and the room found under that code after the operation still
exists, it is still `running`.  In particular the departure of the host
(leave or disconnect) leaves a running room running.  Room codes are
assumed unique in the table, as JavaScript object keys are. -/
theorem claim3_phase_one_way (env : JsEnv) (op : Op) (s : ServerState)
    (hnd : (s.map Room.code).Nodup) (c : String) (r r2 : Room)
    (h : getRoom s c = some r)
    (h2 : getRoom (applyOp env op s).1 c = some r2)
    (hrun : r.phase = .running) : r2.phase = .running := by
  cases op with
  | create conn code seed name color now =>
    simp only [applyOp, onCreateRoom] at h2
    rw [getRoom_append_left _ h] at h2
    obtain rfl : r = r2 := by simpa using h2
    exact hrun
  | join conn codeRaw name color now =>
    simp only [applyOp, onJoinRoom] at h2
    rcases hm : getRoom s (normCode codeRaw) with _ | room
    · simp only [hm] at h2
      obtain rfl : r = r2 := by rw [h] at h2; simpa using h2
      exact hrun
    · simp only [hm] at h2
      split at h2
      · obtain rfl : r = r2 := by rw [h] at h2; simpa using h2
        exact hrun
      · split at h2
        · obtain rfl : r = r2 := by rw [h] at h2; simpa using h2
          exact hrun
        · rcases getRoom_setRoomAt_inv hm h2 ((getRoom_mem hm).2) with ⟨hcc, rfl⟩ | ⟨hcc, hr2⟩
          · subst hcc
            rw [hm] at h
            obtain rfl : room = r := by simpa using h
            simpa [roomWithJoin] using hrun
          · obtain rfl : r = r2 := by rw [h] at hr2; simpa using hr2
            exact hrun
  | setReadyOp conn jc rdy =>
    cases jc with
    | none =>
      simp only [applyOp, onSetReady] at h2
      obtain rfl : r = r2 := by rw [h] at h2; simpa using h2
      exact hrun
    | some c0 =>
      simp only [applyOp, onSetReady] at h2
      rcases hm : getRoom s c0 with _ | r0
      · simp only [hm] at h2
        obtain rfl : r = r2 := by rw [h] at h2; simpa using h2
        exact hrun
      · simp only [hm] at h2
        rcases hp : findP r0.players conn with _ | p
        · simp only [hp] at h2
          obtain rfl : r = r2 := by rw [h] at h2; simpa using h2
          exact hrun
        · simp only [hp] at h2
          rcases getRoom_setRoomAt_inv hm h2 ((getRoom_mem hm).2) with ⟨hcc, rfl⟩ | ⟨hcc, hr2⟩
          · subst hcc
            rw [hm] at h
            obtain rfl : r0 = r := by simpa using h
            simpa using hrun
          · obtain rfl : r = r2 := by rw [h] at hr2; simpa using hr2
            exact hrun
  | start conn jc =>
    cases jc with
    | none =>
      simp only [applyOp, onStartGame] at h2
      obtain rfl : r = r2 := by rw [h] at h2; simpa using h2
      exact hrun
    | some c0 =>
      simp only [applyOp, onStartGame] at h2
      rcases hm : getRoom s c0 with _ | r0
      · simp only [hm] at h2
        obtain rfl : r = r2 := by rw [h] at h2; simpa using h2
        exact hrun
      · simp only [hm] at h2
        rcases hp : findP r0.players conn with _ | p
        · simp only [hp] at h2
          obtain rfl : r = r2 := by rw [h] at h2; simpa using h2
          exact hrun
        · simp only [hp] at h2
          split at h2
          · obtain rfl : r = r2 := by rw [h] at h2; simpa using h2
            exact hrun
          · rcases getRoom_setRoomAt_inv hm h2 ((getRoom_mem hm).2) with ⟨hcc, rfl⟩ | ⟨hcc, hr2⟩
            · rfl
            · obtain rfl : r = r2 := by rw [h] at hr2; simpa using hr2
              exact hrun
  | inputOp conn jc d now =>
    cases jc with
    | none =>
      simp only [applyOp, onInput] at h2
      obtain rfl : r = r2 := by rw [h] at h2; simpa using h2
      exact hrun
    | some c0 =>
      simp only [applyOp, onInput] at h2
      rcases hm : getRoom s c0 with _ | r0
      · simp only [hm] at h2
        obtain rfl : r = r2 := by rw [h] at h2; simpa using h2
        exact hrun
      · simp only [hm] at h2
        rcases hp : findP r0.players conn with _ | p
        · simp only [hp] at h2
          obtain rfl : r = r2 := by rw [h] at h2; simpa using h2
          exact hrun
        · simp only [hp] at h2
          rcases getRoom_setRoomAt_inv hm h2 ((getRoom_mem hm).2) with ⟨hcc, rfl⟩ | ⟨hcc, hr2⟩
          · subst hcc
            rw [hm] at h
            obtain rfl : r0 = r := by simpa using h
            simpa using hrun
          · obtain rfl : r = r2 := by rw [h] at hr2; simpa using hr2
            exact hrun
  | leave conn jc now =>
    cases jc with
    | none =>
      simp only [applyOp, onLeaveRoom] at h2
      obtain rfl : r = r2 := by rw [h] at h2; simpa using h2
      exact hrun
    | some c0 =>
      simp only [applyOp, onLeaveRoom] at h2
      rcases hm : getRoom s c0 with _ | r0
      · simp only [hm] at h2
        obtain rfl : r = r2 := by rw [h] at h2; simpa using h2
        exact hrun
      · simp only [hm] at h2
        split at h2
        · rcases getRoom_setRoomAt_inv hm h2 ((getRoom_mem hm).2) with ⟨hcc, rfl⟩ | ⟨hcc, hr2⟩
          · subst hcc
            rw [hm] at h
            obtain rfl : r0 = r := by simpa using h
            simpa using hrun
          · obtain rfl : r = r2 := by rw [h] at hr2; simpa using hr2
            exact hrun
        · rcases getRoom_setRoomAt_inv hm h2 ((getRoom_mem hm).2) with ⟨hcc, rfl⟩ | ⟨hcc, hr2⟩
          · subst hcc
            rw [hm] at h
            obtain rfl : r0 = r := by simpa using h
            simpa using hrun
          · obtain rfl : r = r2 := by rw [h] at hr2; simpa using hr2
            exact hrun
  | disconnectOp conn jc now =>
    cases jc with
    | none =>
      simp only [applyOp, onDisconnect] at h2
      obtain rfl : r = r2 := by rw [h] at h2; simpa using h2
      exact hrun
    | some c0 =>
      simp only [applyOp, onDisconnect] at h2
      rcases hm : getRoom s c0 with _ | r0
      · simp only [hm] at h2
        obtain rfl : r = r2 := by rw [h] at h2; simpa using h2
        exact hrun
      · simp only [hm] at h2
        split at h2
        · rcases getRoom_setRoomAt_inv hm h2 ((getRoom_mem hm).2) with ⟨hcc, rfl⟩ | ⟨hcc, hr2⟩
          · subst hcc
            rw [hm] at h
            obtain rfl : r0 = r := by simpa using h
            simpa using hrun
          · obtain rfl : r = r2 := by rw [h] at hr2; simpa using hr2
            exact hrun
        · rcases getRoom_setRoomAt_inv hm h2 ((getRoom_mem hm).2) with ⟨hcc, rfl⟩ | ⟨hcc, hr2⟩
          · subst hcc
            rw [hm] at h
            obtain rfl : r0 = r := by simpa using h
            simpa using hrun
          · obtain rfl : r = r2 := by rw [h] at hr2; simpa using hr2
            exact hrun
  | ping conn d =>
    simp only [applyOp, onPingCheck] at h2
    obtain rfl : r = r2 := by rw [h] at h2; simpa using h2
    exact hrun
  | tickSweep now =>
    simp only [applyOp, onTick, destroyEmptyStaleRooms] at h2
    rw [tickAllRooms_fst] at h2
    have hg : ∀ rr : Room,
        ((fun rr => if rr.phase = .running then (tickRoom env now rr).1 else rr) rr).code = rr.code := by
      intro rr
      by_cases hph : rr.phase = .running
      · simp [hph, tickRoom_code]
      · simp [hph]
    have hstep : getRoom
        (s.map fun rr => if rr.phase = .running then (tickRoom env now rr).1 else rr) c =
        some (if r.phase = .running then (tickRoom env now r).1 else r) := by
      rw [getRoom_map _ hg, h]
      rfl
    have hnd2 : ((s.map fun rr => if rr.phase = .running then (tickRoom env now rr).1 else rr).map
        Room.code).Nodup := by
      rw [List.map_map]
      have : (s.map fun rr =>
          ((fun rr => if rr.phase = .running then (tickRoom env now rr).1 else rr) rr).code) =
          s.map Room.code := List.map_congr_left fun a _ => hg a
      simpa [Function.comp] using this ▸ hnd
    have := getRoom_filter_nodup _ hnd2 hstep h2
    rw [this, if_pos hrun, tickRoom_phase]
    exact hrun

/-- Witness for C3: a disconnect of the host of a concrete running room
leaves the phase `running`. -/
theorem claim3_phase_one_way_witness : Phase.running = Phase.running ∧
    (getRoom (applyOp envZero (.disconnectOp "A" (some "RUNRUN") 5) sRunningFx).1 "RUNRUN").map
        Room.phase = some Phase.running := by
  constructor
  · have hlook : getRoom (applyOp envZero (.disconnectOp "A" (some "RUNRUN") 5) sRunningFx).1
        "RUNRUN" = some { runningRoomFx with players := [{ pPlainB with isHost := true }] } := by
      decide
    exact claim3_phase_one_way envZero (.disconnectOp "A" (some "RUNRUN") 5) sRunningFx
      (by decide) "RUNRUN" runningRoomFx _ (by decide) hlook (by decide)
  · decide

end RoadTrip
